import Mathlib

/-!
Verification of the batch email-validation pipeline: a shallow embedding of
the row-processing functions in `server/xlsxProcessor.ts` (`validateEmails`,
`validateEmailsWithSSE`, `processXLSXFile`, `processXLSXFileWithSSE`) and of
the session registry of the Express server (`sseConnections`,
`sendSSEMessage`, the SSE stream endpoint and the upload endpoint's
session-finishing logic).

Rows are modelled as association lists of column name to scalar value,
mirroring JavaScript objects produced by `sheet_to_json`; JavaScript
truthiness, the `||` fallback and object-spread overwriting are modelled
explicitly.  The external per-address `validate` library call is a parameter
`String → String → Except String OutputFormat` (address, sender); a thrown
exception is the `.error` case.
-/

namespace EmailValidator

/-- A scalar cell value as it comes out of `sheet_to_json`. -/
inductive Value where
  | str (s : String)
  | num (n : Int)
  | boolean (b : Bool)
  | null
deriving DecidableEq, Repr

/-- JavaScript truthiness of a scalar value. -/
def jsTruthy : Value → Bool
  | .str s => s != ""
  | .num n => n != 0
  | .boolean b => b
  | .null => false

/-- `obj[key]` on an object represented as an association list
(first match wins; `none` is JavaScript `undefined`). -/
def getEntry {α : Type} : List (String × α) → String → Option α
  | [], _ => none
  | e :: rest, key => if e.1 = key then some e.2 else getEntry rest key

/-- Setting a key on an object / `Map.set`: an existing key keeps its
position and gets the new value, a new key is appended. -/
def setEntry {α : Type} : List (String × α) → String → α → List (String × α)
  | [], key, val => [(key, val)]
  | e :: rest, key, val =>
      if e.1 = key then (key, val) :: rest else e :: setEntry rest key val

/-- `Map.delete` / removal of a key. -/
def delEntry {α : Type} (l : List (String × α)) (key : String) : List (String × α) :=
  l.filter (fun e => e.1 != key)

/-- One spreadsheet row (`EmailRow`): ordered mapping column name → value. -/
abbrev Row := List (String × Value)

/-- Result of one library validator stage (`{valid, reason?}`). -/
structure StageVerdict where
  valid : Bool
  reason : Option String
deriving DecidableEq, Repr

/-- The `validators` record of the library's `OutputFormat`. -/
structure ValidatorsRecord where
  regex : Option StageVerdict
  typo : Option StageVerdict
  disposable : Option StageVerdict
  mx : Option StageVerdict
  smtp : Option StageVerdict
deriving DecidableEq, Repr

/-- The library's `OutputFormat` as used by the processor. -/
structure OutputFormat where
  valid : Bool
  reason : Option String
  validators : Option ValidatorsRecord
deriving DecidableEq, Repr

/-- The external `validate` call: arguments are the trimmed address and the
effective sender; a thrown exception is the `.error` case. -/
abbrev Validate := String → String → Except String OutputFormat

/-- A value stored in a `ValidationResult` object: either a passthrough
scalar from the input row, or one of the result fields. -/
inductive OutVal where
  | scalar (v : Value)
  | flag (b : Bool)
  | reasonVal (r : Option String)
  | validatorsVal (vd : Option ValidatorsRecord)
deriving DecidableEq, Repr

/-- A `ValidationResult` object: the spread row plus the result fields. -/
abbrev RowResult := List (String × OutVal)

/-- `{...row}`: the input row's columns as passthrough scalars. -/
def scalarizeRow (row : Row) : RowResult :=
  row.map (fun e => (e.1, OutVal.scalar e.2))

/-- `email || ''` applied to the extracted value. -/
def emailOrEmpty : Option Value → Value
  | some v => if jsTruthy v then v else .str ""
  | none => .str ""

/-- `{...row, email: email || '', valid: false, reason: 'Invalid email format'}`. -/
def buildInvalidFormatResult (row : Row) (email : Option Value) : RowResult :=
  setEntry (setEntry (setEntry (scalarizeRow row)
    "email" (.scalar (emailOrEmpty email)))
    "valid" (.flag false))
    "reason" (.reasonVal (some "Invalid email format"))

/-- `{...row, email, valid, reason, validators}` from a library result. -/
def buildOkResult (row : Row) (t : String) (out : OutputFormat) : RowResult :=
  setEntry (setEntry (setEntry (setEntry (scalarizeRow row)
    "email" (.scalar (.str t)))
    "valid" (.flag out.valid))
    "reason" (.reasonVal out.reason))
    "validators" (.validatorsVal out.validators)

/-- `{...row, email, valid: false, reason: 'Validation error: ...'}` from the
catch block. -/
def buildErrorResult (row : Row) (t : String) (msg : String) : RowResult :=
  setEntry (setEntry (setEntry (scalarizeRow row)
    "email" (.scalar (.str t)))
    "valid" (.flag false))
    "reason" (.reasonVal (some ("Validation error: " ++ msg)))

/-- `row[Object.keys(row)[0]]`: value of the row's first field. -/
def firstFieldVal : Row → Option Value
  | [] => none
  | e :: rest => getEntry (e :: rest) e.1

/-- `row[emailColumn] || row[Object.keys(row)[0]]` (line 59 / line 233). -/
def extractRaw (row : Row) (emailColumn : String) : Option Value :=
  match getEntry row emailColumn with
  | some v => if jsTruthy v then some v else firstFieldVal row
  | none => firstFieldVal row

/-- `senderEmail || emailToValidate`. -/
def effectiveSender (senderEmail : Option String) (t : String) : String :=
  match senderEmail with
  | some s => if s != "" then s else t
  | none => t

/-- The body of the `validateEmails` loop (lines 57-133) for one row. -/
def processRow (validate : Validate) (emailColumn : String)
    (senderEmail : Option String) (row : Row) : RowResult :=
  match extractRaw row emailColumn with
  | some (Value.str s) =>
      if s = "" then buildInvalidFormatResult row (some (Value.str s))
      else
        match validate s.trim (effectiveSender senderEmail s.trim) with
        | .ok out => buildOkResult row s.trim out
        | .error msg => buildErrorResult row s.trim msg
  | e => buildInvalidFormatResult row e

/-- `validateEmails`: iterate rows, pushing one result each (lines 42-137). -/
def validateEmails (validate : Validate) (emailColumn : String)
    (senderEmail : Option String) (emails : List Row) : List RowResult :=
  emails.foldl
    (fun results row => results ++ [processRow validate emailColumn senderEmail row])
    []

/-- The body of the `validateEmailsWithSSE` loop (lines 231-321) for one row:
the pushed result together with the `onEmailValidated` callback arguments. -/
def processRowSSE (validate : Validate) (emailColumn : String)
    (senderEmail : Option String) (row : Row) :
    RowResult × (Value × Bool × Option String) :=
  match extractRaw row emailColumn with
  | some (Value.str s) =>
      if s = "" then
        (buildInvalidFormatResult row (some (Value.str s)),
         (emailOrEmpty (some (Value.str s)), false, some "Invalid email format"))
      else
        match validate s.trim (effectiveSender senderEmail s.trim) with
        | .ok out =>
            (buildOkResult row s.trim out, (.str s.trim, out.valid, out.reason))
        | .error msg =>
            (buildErrorResult row s.trim msg,
             (.str s.trim, false, some ("Validation error: " ++ msg)))
  | e =>
      (buildInvalidFormatResult row e,
       (emailOrEmpty e, false, some "Invalid email format"))

/-- `validateEmailsWithSSE` (lines 215-325): the result list together with
the ordered list of per-email callback invocations. -/
def validateEmailsWithSSE (validate : Validate) (emailColumn : String)
    (senderEmail : Option String) (emails : List Row) :
    List RowResult × List (Value × Bool × Option String) :=
  emails.foldl
    (fun acc row =>
      (acc.1 ++ [(processRowSSE validate emailColumn senderEmail row).1],
       acc.2 ++ [(processRowSSE validate emailColumn senderEmail row).2]))
    ([], [])

/-- Truthiness of a result-object value (used by `r.valid` filters). -/
def outTruthy : OutVal → Bool
  | .scalar v => jsTruthy v
  | .flag b => b
  | .reasonVal r => match r with | some s => s != "" | none => false
  | .validatorsVal vd => vd.isSome

/-- `r.valid` as a boolean condition. -/
def rowValidTruthy (r : RowResult) : Bool :=
  match getEntry r "valid" with
  | some ov => outTruthy ov
  | none => false

/-- The summary statistics (`{total, valid, invalid}`). -/
structure BatchStats where
  total : Nat
  valid : Nat
  invalid : Nat
deriving DecidableEq, Repr

/-- `total = results.length`, `valid = results.filter(r => r.valid).length`,
`invalid = results.filter(r => !r.valid).length` (lines 186-209). -/
def statsOf (results : List RowResult) : BatchStats :=
  { total := results.length
    valid := (results.filter rowValidTruthy).length
    invalid := (results.filter (fun r => !(rowValidTruthy r))).length }

/-- `processXLSXFile` (lines 162-210), with the row list standing for the
decoded workbook: zero stats on an empty sheet, otherwise the stats of the
`validateEmails` results. -/
def processXLSXFile (validate : Validate) (emailColumn : String)
    (senderEmail : Option String) (rows : List Row) : BatchStats :=
  if rows.isEmpty then ⟨0, 0, 0⟩
  else statsOf (validateEmails validate emailColumn senderEmail rows)

/-- A progress event as passed to `sendSSE` / written to a stream. -/
inductive SSEData where
  | connected (sessionId : String)
  | start (total : Nat)
  | email (address : Value) (valid : Bool) (reason : Option String)
  | complete (stats : BatchStats) (downloadUrl : String) (filename : String)
  | error (message : String)
deriving DecidableEq, Repr

/-- `processXLSXFileWithSSE` (lines 330-406): final stats plus the ordered
list of `sendSSE` invocations it performs. -/
def processXLSXFileWithSSE (validate : Validate) (emailColumn : String)
    (senderEmail : Option String) (rows : List Row) :
    BatchStats × List SSEData :=
  if rows.isEmpty then (⟨0, 0, 0⟩, [.error "No emails found in the file"])
  else
    (statsOf (validateEmailsWithSSE validate emailColumn senderEmail rows).1,
     .start rows.length ::
       (validateEmailsWithSSE validate emailColumn senderEmail rows).2.map
         (fun e => .email e.1 e.2.1 e.2.2))

/-- One SSE response stream: the messages written to it so far, whether
writes succeed (`alive`), and whether `end()` has been called. -/
structure Channel where
  events : List SSEData
  alive : Bool
  ended : Bool
deriving DecidableEq, Repr

/-- The server's shared state: the `sseConnections` map from session id to a
response-stream identity, and the heap of response streams. -/
structure SSEWorld where
  conns : List (String × Nat)
  chans : Nat → Channel

/-- Update one response stream in the heap. -/
def updChan (chans : Nat → Channel) (cid : Nat) (ch : Channel) : Nat → Channel :=
  fun n => if n = cid then ch else chans n

/-- `res.write(...)`: append one message to a stream's output. -/
def writeChan (ch : Channel) (d : SSEData) : Channel :=
  { ch with events := ch.events ++ [d] }

/-- `res.end()`: mark a stream as ended. -/
def endChan (ch : Channel) : Channel :=
  { ch with ended := true }

/-- `sendSSEMessage` (lines 96-114): look the session up in
`sseConnections`; if absent, warn and do nothing; if present, try to write —
a failing write (dead subscriber) is caught and the entry deleted. -/
def sendSSEMessage (w : SSEWorld) (sessionId : String) (d : SSEData) : SSEWorld :=
  match getEntry w.conns sessionId with
  | some cid =>
      if (w.chans cid).alive then
        { w with chans := updChan w.chans cid (writeChan (w.chans cid) d) }
      else
        { w with conns := delEntry w.conns sessionId }
  | none => w

/-- The state change of the SSE stream endpoint once the session id is
accepted (lines 82-86): store the connection, then write the `connected`
message directly to this response stream. -/
def registerWorld (w : SSEWorld) (sessionId : String) (cid : Nat) : SSEWorld :=
  { conns := setEntry w.conns sessionId cid
    chans := updChan w.chans cid (writeChan (w.chans cid) (.connected sessionId)) }

/-- `GET /api/validate-emails-stream` (lines 67-93): a missing/empty session
id is a 400 error; otherwise the connection is stored and the `connected`
message written.  There is no other error case. -/
def handleStreamRequest (w : SSEWorld) (sessionId : String) (cid : Nat) :
    Except String SSEWorld :=
  if sessionId = "" then .error "Session ID required"
  else .ok (registerWorld w sessionId cid)

/-- The `req.on('close')` handler (lines 89-92): delete the entry, end the
stream. -/
def handleClientDisconnect (w : SSEWorld) (sessionId : String) (cid : Nat) : SSEWorld :=
  { conns := delEntry w.conns sessionId
    chans := updChan w.chans cid (endChan (w.chans cid)) }

/-- Session teardown after the upload endpoint finishes (lines 224-229 /
264-268): if an entry exists, end its stream and delete the entry. -/
def closeAfterComplete (w : SSEWorld) (sessionId : String) : SSEWorld :=
  match getEntry w.conns sessionId with
  | some cid =>
      { conns := delEntry w.conns sessionId
        chans := updChan w.chans cid (endChan (w.chans cid)) }
  | none => w

/-- Deliver a list of events through `sendSSEMessage` in order. -/
def publishAll (w : SSEWorld) (sessionId : String) (evs : List SSEData) : SSEWorld :=
  evs.foldl (fun acc d => sendSSEMessage acc sessionId d) w

/-- An arbitrary interleaving of publishes to arbitrary sessions. -/
def publishSeq (w : SSEWorld) (pubs : List (String × SSEData)) : SSEWorld :=
  pubs.foldl (fun acc p => sendSSEMessage acc p.1 p.2) w

/-- The session-relevant behaviour of the `POST /api/validate-emails`
handler when a session id is supplied and processing succeeds (lines
181-230): run `processXLSXFileWithSSE` (whose `sendSSE` callback is
`sendSSEMessage sessionId`), then publish the `complete` event, then end and
deregister the stream.  Returns the stats given to the HTTP response
alongside the final server state. -/
def handleValidateWithSession (validate : Validate) (emailColumn : String)
    (senderEmail : Option String) (rows : List Row) (outputFilename : String)
    (w : SSEWorld) (sessionId : String) : BatchStats × SSEWorld :=
  let pr := processXLSXFileWithSSE validate emailColumn senderEmail rows
  let w1 := publishAll w sessionId pr.2
  let w2 := sendSSEMessage w1 sessionId
    (.complete pr.1 ("/api/download/" ++ outputFilename) outputFilename)
  (pr.1, closeAfterComplete w2 sessionId)

/-- Appending a batch of messages to a stream (iterated `writeChan`). -/
def appendEvents (ch : Channel) (evs : List SSEData) : Channel :=
  { ch with events := ch.events ++ evs }

/-! ### Basic lemmas about objects, maps and the stream heap -/

theorem getEntry_setEntry_same {α : Type} (l : List (String × α)) (k : String) (v : α) :
    getEntry (setEntry l k v) k = some v := by
  induction l with
  | nil => simp [setEntry, getEntry]
  | cons e rest ih =>
      by_cases h : e.1 = k
      · simp [setEntry, getEntry, h]
      · simp [setEntry, getEntry, h, ih]

theorem getEntry_setEntry_other {α : Type} (l : List (String × α)) (k k' : String)
    (v : α) (h : k' ≠ k) :
    getEntry (setEntry l k v) k' = getEntry l k' := by
  induction l with
  | nil => simp [setEntry, getEntry, Ne.symm h]
  | cons e rest ih =>
      by_cases he : e.1 = k
      · simp [setEntry, getEntry, he, Ne.symm h]
      · simp [setEntry, getEntry, he, ih]

theorem getEntry_delEntry_same {α : Type} (l : List (String × α)) (k : String) :
    getEntry (delEntry l k) k = none := by
  induction l with
  | nil => simp [delEntry, getEntry]
  | cons e rest ih =>
      by_cases h : e.1 = k
      · simpa [delEntry, List.filter_cons, h] using ih
      · simpa [delEntry, List.filter_cons, getEntry, h] using ih

theorem getEntry_scalarize (row : Row) (k : String) :
    getEntry (scalarizeRow row) k = (getEntry row k).map OutVal.scalar := by
  induction row with
  | nil => simp [scalarizeRow, getEntry]
  | cons e rest ih =>
      by_cases h : e.1 = k
      · simp [scalarizeRow, getEntry, h]
      · simpa [scalarizeRow, getEntry, h] using ih

theorem updChan_same (f : Nat → Channel) (cid : Nat) (ch : Channel) :
    updChan f cid ch cid = ch := by
  simp [updChan]

theorem updChan_self (f : Nat → Channel) (cid : Nat) :
    updChan f cid (f cid) = f := by
  funext n
  by_cases h : n = cid <;> simp [updChan, h]

theorem updChan_updChan (f : Nat → Channel) (cid : Nat) (a b : Channel) :
    updChan (updChan f cid a) cid b = updChan f cid b := by
  funext n
  by_cases h : n = cid <;> simp [updChan, h]

theorem length_filter_partition {α : Type} (p : α → Bool) (l : List α) :
    (l.filter p).length + (l.filter (fun a => !(p a))).length = l.length := by
  induction l with
  | nil => rfl
  | cons a l ih =>
      by_cases h : p a <;> simp [List.filter_cons, h] <;> omega

/-! ### The batch loops as maps over the row list -/

theorem validateEmails_eq_map (validate : Validate) (ec : String)
    (se : Option String) (rows : List Row) :
    validateEmails validate ec se rows = rows.map (processRow validate ec se) := by
  have h : ∀ (l : List Row) (init : List RowResult),
      l.foldl (fun results row => results ++ [processRow validate ec se row]) init
        = init ++ l.map (processRow validate ec se) := by
    intro l
    induction l with
    | nil => intro init; simp
    | cons r rs ih =>
        intro init
        rw [List.foldl_cons, ih, List.map_cons]
        simp
  simpa [validateEmails] using h rows []

theorem validateEmailsWithSSE_eq_map (validate : Validate) (ec : String)
    (se : Option String) (rows : List Row) :
    validateEmailsWithSSE validate ec se rows
      = (rows.map (fun r => (processRowSSE validate ec se r).1),
         rows.map (fun r => (processRowSSE validate ec se r).2)) := by
  have h : ∀ (l : List Row) (a1 : List RowResult)
      (a2 : List (Value × Bool × Option String)),
      l.foldl
        (fun acc row =>
          (acc.1 ++ [(processRowSSE validate ec se row).1],
           acc.2 ++ [(processRowSSE validate ec se row).2]))
        (a1, a2)
        = (a1 ++ l.map (fun r => (processRowSSE validate ec se r).1),
           a2 ++ l.map (fun r => (processRowSSE validate ec se r).2)) := by
    intro l
    induction l with
    | nil => intro a1 a2; simp
    | cons r rs ih =>
        intro a1 a2
        rw [List.foldl_cons, ih]
        simp
  simpa [validateEmailsWithSSE] using h rows [] []

theorem processRowSSE_fst (validate : Validate) (ec : String)
    (se : Option String) (row : Row) :
    (processRowSSE validate ec se row).1 = processRow validate ec se row := by
  unfold processRowSSE processRow
  cases hx : extractRaw row ec with
  | none => rfl
  | some v =>
      cases v with
      | str s =>
          by_cases hs : s = ""
          · simp [hs]
          · simp only [hs, if_false]
            cases validate s.trim (effectiveSender se s.trim) <;> rfl
      | num n => rfl
      | boolean b => rfl
      | null => rfl

/-! ### Result-object field lemmas -/

theorem getEntry_buildInvalidFormat_valid (row : Row) (e : Option Value) :
    getEntry (buildInvalidFormatResult row e) "valid" = some (OutVal.flag false) := by
  unfold buildInvalidFormatResult
  rw [getEntry_setEntry_other _ _ _ _ (by decide), getEntry_setEntry_same]

theorem getEntry_buildInvalidFormat_reason (row : Row) (e : Option Value) :
    getEntry (buildInvalidFormatResult row e) "reason"
      = some (OutVal.reasonVal (some "Invalid email format")) := by
  unfold buildInvalidFormatResult
  rw [getEntry_setEntry_same]

theorem getEntry_buildError_valid (row : Row) (t msg : String) :
    getEntry (buildErrorResult row t msg) "valid" = some (OutVal.flag false) := by
  unfold buildErrorResult
  rw [getEntry_setEntry_other _ _ _ _ (by decide), getEntry_setEntry_same]

theorem getEntry_buildError_reason (row : Row) (t msg : String) :
    getEntry (buildErrorResult row t msg) "reason"
      = some (OutVal.reasonVal (some ("Validation error: " ++ msg))) := by
  unfold buildErrorResult
  rw [getEntry_setEntry_same]

theorem getEntry_buildOk_valid (row : Row) (t : String) (out : OutputFormat) :
    getEntry (buildOkResult row t out) "valid" = some (OutVal.flag out.valid) := by
  unfold buildOkResult
  rw [getEntry_setEntry_other _ _ _ _ (by decide),
    getEntry_setEntry_other _ _ _ _ (by decide), getEntry_setEntry_same]

theorem getEntry_buildInvalidFormat_other (row : Row) (e : Option Value) (k : String)
    (h1 : k ≠ "email") (h2 : k ≠ "valid") (h3 : k ≠ "reason") :
    getEntry (buildInvalidFormatResult row e) k = (getEntry row k).map OutVal.scalar := by
  unfold buildInvalidFormatResult
  rw [getEntry_setEntry_other _ _ _ _ h3, getEntry_setEntry_other _ _ _ _ h2,
    getEntry_setEntry_other _ _ _ _ h1, getEntry_scalarize]

theorem getEntry_buildError_other (row : Row) (t msg : String) (k : String)
    (h1 : k ≠ "email") (h2 : k ≠ "valid") (h3 : k ≠ "reason") :
    getEntry (buildErrorResult row t msg) k = (getEntry row k).map OutVal.scalar := by
  unfold buildErrorResult
  rw [getEntry_setEntry_other _ _ _ _ h3, getEntry_setEntry_other _ _ _ _ h2,
    getEntry_setEntry_other _ _ _ _ h1, getEntry_scalarize]

theorem getEntry_buildOk_other (row : Row) (t : String) (out : OutputFormat) (k : String)
    (h1 : k ≠ "email") (h2 : k ≠ "valid") (h3 : k ≠ "reason") (h4 : k ≠ "validators") :
    getEntry (buildOkResult row t out) k = (getEntry row k).map OutVal.scalar := by
  unfold buildOkResult
  rw [getEntry_setEntry_other _ _ _ _ h4, getEntry_setEntry_other _ _ _ _ h3,
    getEntry_setEntry_other _ _ _ _ h2, getEntry_setEntry_other _ _ _ _ h1,
    getEntry_scalarize]

/-- `processRow` lands in exactly one of the three result builders. -/
theorem processRow_cases (validate : Validate) (ec : String)
    (se : Option String) (row : Row) :
    processRow validate ec se row = buildInvalidFormatResult row (extractRaw row ec) ∨
    (∃ s out, extractRaw row ec = some (Value.str s) ∧ s ≠ "" ∧
      validate s.trim (effectiveSender se s.trim) = .ok out ∧
      processRow validate ec se row = buildOkResult row s.trim out) ∨
    (∃ s msg, extractRaw row ec = some (Value.str s) ∧ s ≠ "" ∧
      validate s.trim (effectiveSender se s.trim) = .error msg ∧
      processRow validate ec se row = buildErrorResult row s.trim msg) := by
  unfold processRow
  cases hx : extractRaw row ec with
  | none => exact Or.inl rfl
  | some v =>
      cases v with
      | str s =>
          by_cases hs : s = ""
          · subst hs; simp
          · simp only [hs, if_false]
            cases hv : validate s.trim (effectiveSender se s.trim) with
            | ok out => exact Or.inr (Or.inl ⟨s, out, rfl, hs, hv, rfl⟩)
            | error msg => exact Or.inr (Or.inr ⟨s, msg, rfl, hs, hv, rfl⟩)
      | num n => exact Or.inl rfl
      | boolean b => exact Or.inl rfl
      | null => exact Or.inl rfl

/-- Every row result carries a boolean `valid` field, and the JavaScript
truthiness test on it reads exactly that boolean. -/
theorem processRow_valid_flag (validate : Validate) (ec : String)
    (se : Option String) (row : Row) :
    ∃ b, getEntry (processRow validate ec se row) "valid" = some (OutVal.flag b) := by
  rcases processRow_cases validate ec se row with h | ⟨s, out, _, _, _, h⟩ | ⟨s, msg, _, _, _, h⟩
  · exact ⟨false, by rw [h, getEntry_buildInvalidFormat_valid]⟩
  · exact ⟨out.valid, by rw [h, getEntry_buildOk_valid]⟩
  · exact ⟨false, by rw [h, getEntry_buildError_valid]⟩

theorem rowValidTruthy_of_flag (r : RowResult) (b : Bool)
    (h : getEntry r "valid" = some (OutVal.flag b)) :
    rowValidTruthy r = b := by
  simp [rowValidTruthy, h, outTruthy]

/-! ### Broadcaster state lemmas -/

theorem sendSSEMessage_noEntry (w : SSEWorld) (sid : String) (d : SSEData)
    (h : getEntry w.conns sid = none) :
    sendSSEMessage w sid d = w := by
  simp [sendSSEMessage, h]

theorem sendSSEMessage_alive (w : SSEWorld) (sid : String) (d : SSEData) (cid : Nat)
    (hc : getEntry w.conns sid = some cid) (ha : (w.chans cid).alive = true) :
    sendSSEMessage w sid d
      = { w with chans := updChan w.chans cid (writeChan (w.chans cid) d) } := by
  simp [sendSSEMessage, hc, ha]

theorem sendSSEMessage_dead (w : SSEWorld) (sid : String) (d : SSEData) (cid : Nat)
    (hc : getEntry w.conns sid = some cid) (ha : (w.chans cid).alive = false) :
    sendSSEMessage w sid d = { w with conns := delEntry w.conns sid } := by
  simp [sendSSEMessage, hc, ha]

theorem publishAll_noEntry (sid : String) (evs : List SSEData) :
    ∀ (w : SSEWorld), getEntry w.conns sid = none → publishAll w sid evs = w := by
  induction evs with
  | nil => intro w _; rfl
  | cons d ds ih =>
      intro w h
      have : publishAll w sid (d :: ds) = publishAll (sendSSEMessage w sid d) sid ds := rfl
      rw [this, sendSSEMessage_noEntry w sid d h]
      exact ih w h

theorem publishAll_alive (sid : String) (cid : Nat) (evs : List SSEData) :
    ∀ (w : SSEWorld), getEntry w.conns sid = some cid → (w.chans cid).alive = true →
    publishAll w sid evs
      = { w with chans := updChan w.chans cid (appendEvents (w.chans cid) evs) } := by
  induction evs with
  | nil =>
      intro w hc ha
      show w = _
      rw [show appendEvents (w.chans cid) [] = w.chans cid by simp [appendEvents]]
      rw [updChan_self]
  | cons d ds ih =>
      intro w hc ha
      have step : publishAll w sid (d :: ds) = publishAll (sendSSEMessage w sid d) sid ds := rfl
      rw [step, sendSSEMessage_alive w sid d cid hc ha]
      rw [ih _ (by simpa using hc) (by simp [updChan_same, writeChan, ha])]
      simp [updChan_same, updChan_updChan, writeChan, appendEvents]

/-- A publish can only extend the output already written on any stream. -/
theorem sendSSEMessage_events_extend (w : SSEWorld) (sid : String) (d : SSEData) (cid : Nat) :
    ∃ t, ((sendSSEMessage w sid d).chans cid).events = (w.chans cid).events ++ t := by
  cases hc : getEntry w.conns sid with
  | none => exact ⟨[], by rw [sendSSEMessage_noEntry w sid d hc]; simp⟩
  | some cid₂ =>
      cases ha : (w.chans cid₂).alive with
      | true =>
          by_cases he : cid = cid₂
          · subst he
            exact ⟨[d], by rw [sendSSEMessage_alive w sid d cid hc ha]
                           simp [updChan_same, writeChan]⟩
          · exact ⟨[], by rw [sendSSEMessage_alive w sid d cid₂ hc ha]
                          simp [updChan, he]⟩
      | false =>
          exact ⟨[], by rw [sendSSEMessage_dead w sid d cid₂ hc ha]; simp⟩

/-- Whatever is published afterwards, the head of a stream's output never
changes. -/
theorem publishSeq_head (pubs : List (String × SSEData)) :
    ∀ (w : SSEWorld) (cid : Nat) (x : SSEData) (t0 : List SSEData),
    (w.chans cid).events = x :: t0 →
    ∃ t, ((publishSeq w pubs).chans cid).events = x :: t := by
  induction pubs with
  | nil => intro w cid x t0 h; exact ⟨t0, h⟩
  | cons p ps ih =>
      intro w cid x t0 h
      obtain ⟨t, ht⟩ := sendSSEMessage_events_extend w p.1 p.2 cid
      have step : publishSeq w (p :: ps) = publishSeq (sendSSEMessage w p.1 p.2) ps := rfl
      rw [step]
      exact ih _ cid x (t0 ++ t) (by rw [ht, h]; simp)

theorem closeAfterComplete_entry (w : SSEWorld) (sid : String) (cid : Nat)
    (hc : getEntry w.conns sid = some cid) :
    closeAfterComplete w sid
      = { conns := delEntry w.conns sid
          chans := updChan w.chans cid (endChan (w.chans cid)) } := by
  simp [closeAfterComplete, hc]

theorem filter_congr_mem {α : Type} (l : List α) (p q : α → Bool)
    (h : ∀ x ∈ l, p x = q x) : l.filter p = l.filter q := by
  induction l with
  | nil => rfl
  | cons a l ih =>
      have ha := h a (by simp)
      rw [List.filter_cons, List.filter_cons, ha,
        ih (fun x hx => h x (by simp [hx]))]

theorem zip_map_snd {α β : Type} (f : α → β) (l : List α) :
    ∀ p ∈ l.zip (l.map f), p.2 = f p.1 := by
  induction l with
  | nil => intro p hp; simp at hp
  | cons a l ih =>
      intro p hp
      rcases List.mem_cons.mp hp with hp | hp
      · subst hp; rfl
      · exact ih p hp

theorem getEntry_processRow_other (validate : Validate) (ec : String)
    (se : Option String) (row : Row) (k : String)
    (h1 : k ≠ "email") (h2 : k ≠ "valid") (h3 : k ≠ "reason") (h4 : k ≠ "validators") :
    getEntry (processRow validate ec se row) k = (getEntry row k).map OutVal.scalar := by
  rcases processRow_cases validate ec se row with h | ⟨s, out, _, _, _, h⟩ | ⟨s, msg, _, _, _, h⟩
  · rw [h, getEntry_buildInvalidFormat_other _ _ _ h1 h2 h3]
  · rw [h, getEntry_buildOk_other _ _ _ _ h1 h2 h3 h4]
  · rw [h, getEntry_buildError_other _ _ _ _ h1 h2 h3]

/-! ### Shared concrete inputs for witnesses -/

def sampleOut : OutputFormat := { valid := true, reason := none, validators := none }

def okValidate : Validate := fun _ _ => .ok sampleOut

def errValidate : Validate := fun _ _ => .error "boom"

def probeValidate : Validate :=
  fun e _ => .ok { valid := true, reason := some e, validators := none }

def sampleRow : Row := [("email", Value.str "a@b.c")]

def sampleRows : List Row := [sampleRow]

def blankEmailRow : Row := [("email", Value.str ""), ("note", Value.str "hi")]

def cexRow : Row := [("name", Value.str "first@example.com"), ("email", Value.str "")]

def freshChannel : Channel := { events := [], alive := true, ended := false }

def deadChannel : Channel := { events := [], alive := false, ended := false }

def emptyWorld : SSEWorld := { conns := [], chans := fun _ => freshChannel }

def liveWorld : SSEWorld := { conns := [("s1", 0)], chans := fun _ => freshChannel }

def deadWorld : SSEWorld := { conns := [("s1", 0)], chans := fun _ => deadChannel }

/-! ### Claims -/

/-- C1: for every non-empty input row sequence, the batch run
(`processXLSXFile` over `validateEmails`) returns stats whose `total` equals
the number of input rows, whose `valid` and `invalid` counts sum to `total`,
and where `valid`/`invalid` count exactly the row results whose `valid`
field is `true`/`false` — rows whose address extraction failed are counted
as invalid, not excluded. -/
theorem claim_C1_batch_stats_consistent (validate : Validate) (ec : String)
    (se : Option String) (rows : List Row) (h : rows ≠ []) :
    (processXLSXFile validate ec se rows).total = rows.length ∧
    (processXLSXFile validate ec se rows).valid
        + (processXLSXFile validate ec se rows).invalid
      = (processXLSXFile validate ec se rows).total ∧
    (processXLSXFile validate ec se rows).valid
      = ((validateEmails validate ec se rows).filter
          (fun r => decide (getEntry r "valid" = some (OutVal.flag true)))).length ∧
    (processXLSXFile validate ec se rows).invalid
      = ((validateEmails validate ec se rows).filter
          (fun r => decide (getEntry r "valid" = some (OutVal.flag false)))).length := by
  have hne : rows.isEmpty = false := by
    cases rows with
    | nil => exact absurd rfl h
    | cons a l => rfl
  have hunfold : processXLSXFile validate ec se rows
      = statsOf (validateEmails validate ec se rows) := by
    rw [processXLSXFile, hne]; rfl
  have hflag : ∀ r ∈ validateEmails validate ec se rows,
      ∃ b, getEntry r "valid" = some (OutVal.flag b) := by
    intro r hr
    rw [validateEmails_eq_map] at hr
    obtain ⟨row, _, hrow⟩ := List.mem_map.mp hr
    exact hrow ▸ processRow_valid_flag validate ec se row
  refine ⟨?_, ?_, ?_, ?_⟩
  · rw [hunfold]
    show (validateEmails validate ec se rows).length = rows.length
    rw [validateEmails_eq_map]
    simp
  · rw [hunfold]
    show ((validateEmails validate ec se rows).filter rowValidTruthy).length
        + ((validateEmails validate ec se rows).filter
            (fun r => !(rowValidTruthy r))).length
      = (validateEmails validate ec se rows).length
    exact length_filter_partition rowValidTruthy _
  · rw [hunfold]
    show ((validateEmails validate ec se rows).filter rowValidTruthy).length = _
    refine congrArg List.length (filter_congr_mem _ _ _ ?_)
    intro r hr
    obtain ⟨b, hb⟩ := hflag r hr
    rw [rowValidTruthy_of_flag r b hb, hb]
    cases b <;> simp
  · rw [hunfold]
    show ((validateEmails validate ec se rows).filter
        (fun r => !(rowValidTruthy r))).length = _
    refine congrArg List.length (filter_congr_mem _ _ _ ?_)
    intro r hr
    obtain ⟨b, hb⟩ := hflag r hr
    rw [rowValidTruthy_of_flag r b hb, hb]
    cases b <;> simp

theorem claim_C1_witness :
    (processXLSXFile okValidate "email" none sampleRows).total = sampleRows.length ∧
    (processXLSXFile okValidate "email" none sampleRows).valid
        + (processXLSXFile okValidate "email" none sampleRows).invalid
      = (processXLSXFile okValidate "email" none sampleRows).total ∧
    (processXLSXFile okValidate "email" none sampleRows).valid
      = ((validateEmails okValidate "email" none sampleRows).filter
          (fun r => decide (getEntry r "valid" = some (OutVal.flag true)))).length ∧
    (processXLSXFile okValidate "email" none sampleRows).invalid
      = ((validateEmails okValidate "email" none sampleRows).filter
          (fun r => decide (getEntry r "valid" = some (OutVal.flag false)))).length :=
  claim_C1_batch_stats_consistent okValidate "email" none sampleRows (by decide)

/-- C2: running the batch without a session (`validateEmails` /
`processXLSXFile`) produces exactly the same row-result sequence, and hence
the same stats, as running it with a session attached
(`validateEmailsWithSSE` / `processXLSXFileWithSSE`), for the same
per-address validation function. -/
theorem claim_C2_sse_refines_plain (validate : Validate) (ec : String)
    (se : Option String) (rows : List Row) :
    (validateEmailsWithSSE validate ec se rows).1 = validateEmails validate ec se rows ∧
    (processXLSXFileWithSSE validate ec se rows).1
      = processXLSXFile validate ec se rows := by
  have hres : (validateEmailsWithSSE validate ec se rows).1
      = validateEmails validate ec se rows := by
    rw [validateEmailsWithSSE_eq_map, validateEmails_eq_map]
    simp only [processRowSSE_fst]
  refine ⟨hres, ?_⟩
  cases hne : rows.isEmpty with
  | true =>
      rw [processXLSXFileWithSSE, processXLSXFile, hne]
      simp
  | false =>
      rw [processXLSXFileWithSSE, processXLSXFile, hne]
      simp [hres]

/-- C5: a row whose per-address validation throws is caught at the loop
boundary: the row is recorded with `valid` `false` and reason
`Validation error: <message>` (distinguishable from a normal verdict's
stage-name reason), no exception escapes (the batch functions are total),
and the remaining rows are still processed — in both the plain and the
SSE variant, which also reports the same failure through its callback. -/
theorem claim_C5_validation_error_contained (validate : Validate) (ec : String)
    (se : Option String) (row : Row) (rest : List Row) (s msg : String)
    (hx : extractRaw row ec = some (Value.str s)) (hs : s ≠ "")
    (hv : validate s.trim (effectiveSender se s.trim) = .error msg) :
    validateEmails validate ec se (row :: rest)
      = buildErrorResult row s.trim msg :: validateEmails validate ec se rest ∧
    getEntry (buildErrorResult row s.trim msg) "valid" = some (OutVal.flag false) ∧
    getEntry (buildErrorResult row s.trim msg) "reason"
      = some (OutVal.reasonVal (some ("Validation error: " ++ msg))) ∧
    (validateEmailsWithSSE validate ec se (row :: rest)).1
      = buildErrorResult row s.trim msg :: (validateEmailsWithSSE validate ec se rest).1 ∧
    (validateEmailsWithSSE validate ec se (row :: rest)).2
      = (Value.str s.trim, false, some ("Validation error: " ++ msg))
          :: (validateEmailsWithSSE validate ec se rest).2 := by
  have hrow : processRow validate ec se row = buildErrorResult row s.trim msg := by
    unfold processRow
    rw [hx]
    simp only [hs, if_false, hv]
  have hrowSSE : processRowSSE validate ec se row
      = (buildErrorResult row s.trim msg,
         (Value.str s.trim, false, some ("Validation error: " ++ msg))) := by
    unfold processRowSSE
    rw [hx]
    simp only [hs, if_false, hv]
  refine ⟨?_, getEntry_buildError_valid row s.trim msg,
    getEntry_buildError_reason row s.trim msg, ?_, ?_⟩
  · rw [validateEmails_eq_map, validateEmails_eq_map, List.map_cons, hrow]
  · rw [validateEmailsWithSSE_eq_map, validateEmailsWithSSE_eq_map]
    simp [hrowSSE]
  · rw [validateEmailsWithSSE_eq_map, validateEmailsWithSSE_eq_map]
    simp [hrowSSE]

theorem claim_C5_witness :
    ("a@b.c" : String) ≠ "" ∧
    (validateEmails errValidate "email" none (sampleRow :: [])
      = buildErrorResult sampleRow ("a@b.c".trim) "boom"
          :: validateEmails errValidate "email" none [] ∧
    getEntry (buildErrorResult sampleRow ("a@b.c".trim) "boom") "valid"
      = some (OutVal.flag false) ∧
    getEntry (buildErrorResult sampleRow ("a@b.c".trim) "boom") "reason"
      = some (OutVal.reasonVal (some ("Validation error: " ++ "boom"))) ∧
    (validateEmailsWithSSE errValidate "email" none (sampleRow :: [])).1
      = buildErrorResult sampleRow ("a@b.c".trim) "boom"
          :: (validateEmailsWithSSE errValidate "email" none []).1 ∧
    (validateEmailsWithSSE errValidate "email" none (sampleRow :: [])).2
      = (Value.str ("a@b.c".trim), false, some ("Validation error: " ++ "boom"))
          :: (validateEmailsWithSSE errValidate "email" none []).2) :=
  ⟨by decide,
   claim_C5_validation_error_contained errValidate "email" none sampleRow [] "a@b.c" "boom"
     (by decide) (by decide) rfl⟩

/-- C6: a row whose extracted address is missing, empty, or not a string
never reaches the validation call: it is recorded directly with `valid`
`false` and reason `Invalid email format` (the result is built without
consulting the validator), and the rest of the batch is still processed. -/
theorem claim_C6_bad_address_skips_chain (validate : Validate) (ec : String)
    (se : Option String) (row : Row) (rest : List Row)
    (h : ∀ s, extractRaw row ec = some (Value.str s) → s = "") :
    validateEmails validate ec se (row :: rest)
      = buildInvalidFormatResult row (extractRaw row ec)
          :: validateEmails validate ec se rest ∧
    getEntry (buildInvalidFormatResult row (extractRaw row ec)) "valid"
      = some (OutVal.flag false) ∧
    getEntry (buildInvalidFormatResult row (extractRaw row ec)) "reason"
      = some (OutVal.reasonVal (some "Invalid email format")) ∧
    (validateEmailsWithSSE validate ec se (row :: rest)).1
      = buildInvalidFormatResult row (extractRaw row ec)
          :: (validateEmailsWithSSE validate ec se rest).1 ∧
    (validateEmailsWithSSE validate ec se (row :: rest)).2
      = (emailOrEmpty (extractRaw row ec), false, some "Invalid email format")
          :: (validateEmailsWithSSE validate ec se rest).2 := by
  have hrow : processRow validate ec se row
      = buildInvalidFormatResult row (extractRaw row ec) := by
    unfold processRow
    cases hx : extractRaw row ec with
    | none => rfl
    | some v =>
        cases v with
        | str s =>
            have hs0 : s = "" := h s hx
            subst hs0
            rfl
        | num n => rfl
        | boolean b => rfl
        | null => rfl
  have hrowSSE : processRowSSE validate ec se row
      = (buildInvalidFormatResult row (extractRaw row ec),
         (emailOrEmpty (extractRaw row ec), false, some "Invalid email format")) := by
    unfold processRowSSE
    cases hx : extractRaw row ec with
    | none => rfl
    | some v =>
        cases v with
        | str s =>
            have hs0 : s = "" := h s hx
            subst hs0
            rfl
        | num n => rfl
        | boolean b => rfl
        | null => rfl
  refine ⟨?_, getEntry_buildInvalidFormat_valid row _,
    getEntry_buildInvalidFormat_reason row _, ?_, ?_⟩
  · rw [validateEmails_eq_map, validateEmails_eq_map, List.map_cons, hrow]
  · rw [validateEmailsWithSSE_eq_map, validateEmailsWithSSE_eq_map]
    simp [hrowSSE]
  · rw [validateEmailsWithSSE_eq_map, validateEmailsWithSSE_eq_map]
    simp [hrowSSE]

theorem claim_C6_witness :
    validateEmails okValidate "email" none (blankEmailRow :: [])
      = buildInvalidFormatResult blankEmailRow (extractRaw blankEmailRow "email")
          :: validateEmails okValidate "email" none [] ∧
    getEntry (buildInvalidFormatResult blankEmailRow (extractRaw blankEmailRow "email"))
        "valid" = some (OutVal.flag false) ∧
    getEntry (buildInvalidFormatResult blankEmailRow (extractRaw blankEmailRow "email"))
        "reason" = some (OutVal.reasonVal (some "Invalid email format")) ∧
    (validateEmailsWithSSE okValidate "email" none (blankEmailRow :: [])).1
      = buildInvalidFormatResult blankEmailRow (extractRaw blankEmailRow "email")
          :: (validateEmailsWithSSE okValidate "email" none []).1 ∧
    (validateEmailsWithSSE okValidate "email" none (blankEmailRow :: [])).2
      = (emailOrEmpty (extractRaw blankEmailRow "email"), false,
          some "Invalid email format")
          :: (validateEmailsWithSSE okValidate "email" none []).2 :=
  claim_C6_bad_address_skips_chain okValidate "email" none blankEmailRow []
    (fun s hs => by injection hs with h1; injection h1 with h2; exact h2.symm)

theorem getEntry_buildOk_reason (row : Row) (t : String) (out : OutputFormat) :
    getEntry (buildOkResult row t out) "reason" = some (OutVal.reasonVal out.reason) := by
  unfold buildOkResult
  rw [getEntry_setEntry_other _ _ _ _ (by decide), getEntry_setEntry_same]

/-- C7 counterexample: in row
`[("name", "first@example.com"), ("email", "")]` the caller-specified
column `email` is present with value `""`, yet the extracted address — the
one handed to the validation call, as witnessed by a probing validator that
echoes its input in `reason` — is the first field's value
`"first@example.com"`, not the email column's value.  The fallback fires on
a present-but-falsy column, so the claim as stated is false. -/
theorem claim_C7_counterexample :
    getEntry cexRow "email" = some (Value.str "") ∧
    extractRaw cexRow "email" = some (Value.str "first@example.com") ∧
    extractRaw cexRow "email" ≠ getEntry cexRow "email" ∧
    getEntry (processRow probeValidate "email" none cexRow) "reason"
      = some (OutVal.reasonVal (some ("first@example.com".trim))) := by
  have hx : extractRaw cexRow "email" = some (Value.str "first@example.com") := by decide
  have hrow : processRow probeValidate "email" none cexRow
      = buildOkResult cexRow ("first@example.com".trim)
          { valid := true, reason := some ("first@example.com".trim), validators := none } := by
    unfold processRow
    rw [hx]
    rfl
  refine ⟨by decide, hx, by decide, ?_⟩
  rw [hrow, getEntry_buildOk_reason]

/-- C7 (amended): the address submitted to validation is the email column's
value only when that column is present with a JavaScript-truthy value; when
the column is absent *or* its value is falsy (empty string, `0`, `false`,
`null`), the code falls back to the row's first field.  Rows are iterated in
input order and each result is appended in that order. -/
theorem claim_C7_extraction_amended (validate : Validate) (ec : String)
    (se : Option String) (rows : List Row) :
    validateEmails validate ec se rows = rows.map (processRow validate ec se) ∧
    (∀ row v, getEntry row ec = some v → jsTruthy v = true →
      extractRaw row ec = some v) ∧
    (∀ row v, getEntry row ec = some v → jsTruthy v = false →
      extractRaw row ec = firstFieldVal row) ∧
    (∀ row, getEntry row ec = none → extractRaw row ec = firstFieldVal row) := by
  refine ⟨validateEmails_eq_map validate ec se rows, ?_, ?_, ?_⟩
  · intro row v hv ht
    rw [extractRaw, hv]
    show (if jsTruthy v = true then some v else firstFieldVal row) = some v
    rw [ht]
    simp
  · intro row v hv ht
    rw [extractRaw, hv]
    show (if jsTruthy v = true then some v else firstFieldVal row) = firstFieldVal row
    rw [ht]
    simp
  · intro row hv
    rw [extractRaw, hv]

theorem claim_C7_witness :
    validateEmails okValidate "email" none sampleRows
      = sampleRows.map (processRow okValidate "email" none) ∧
    extractRaw sampleRow "email" = some (Value.str "a@b.c") ∧
    extractRaw cexRow "email" = firstFieldVal cexRow ∧
    extractRaw [("x", Value.num 1)] "email" = firstFieldVal [("x", Value.num 1)] :=
  ⟨(claim_C7_extraction_amended okValidate "email" none sampleRows).1,
   (claim_C7_extraction_amended okValidate "email" none sampleRows).2.1
     sampleRow (Value.str "a@b.c") (by decide) (by decide),
   (claim_C7_extraction_amended okValidate "email" none sampleRows).2.2.1
     cexRow (Value.str "") (by decide) (by decide),
   (claim_C7_extraction_amended okValidate "email" none sampleRows).2.2.2
     [("x", Value.num 1)] (by decide)⟩

/-- C9: every column of an input row other than the result fields `email`,
`valid`, `reason`, `validators` appears in that row's result with its
original value unchanged (wrapped as a passthrough scalar), for every
row/result pair of the batch. -/
theorem claim_C9_passthrough_columns (validate : Validate) (ec : String)
    (se : Option String) (rows : List Row) (k : String)
    (h1 : k ≠ "email") (h2 : k ≠ "valid") (h3 : k ≠ "reason") (h4 : k ≠ "validators")
    (p : Row × RowResult)
    (hp : p ∈ rows.zip (validateEmails validate ec se rows)) :
    getEntry p.2 k = (getEntry p.1 k).map OutVal.scalar := by
  rw [validateEmails_eq_map] at hp
  rw [zip_map_snd (processRow validate ec se) rows p hp]
  exact getEntry_processRow_other validate ec se p.1 k h1 h2 h3 h4

theorem claim_C9_witness :
    getEntry ((blankEmailRow,
        buildInvalidFormatResult blankEmailRow (some (Value.str ""))).2) "note"
      = (getEntry (blankEmailRow,
          buildInvalidFormatResult blankEmailRow (some (Value.str ""))).1 "note").map
        OutVal.scalar :=
  claim_C9_passthrough_columns okValidate "email" none [blankEmailRow] "note"
    (by decide) (by decide) (by decide) (by decide)
    (blankEmailRow, buildInvalidFormatResult blankEmailRow (some (Value.str "")))
    (by decide)

/-- C3 counterexample: registering session `s1` twice without an
intervening close does not fail — both calls return successfully (the only
error the endpoint can produce is the missing-session-id 400) — and the
second call silently replaces the first subscriber's stream (identity `1`)
with the second one (identity `2`) in the registry. -/
theorem claim_C3_counterexample :
    handleStreamRequest emptyWorld "s1" 1 = .ok (registerWorld emptyWorld "s1" 1) ∧
    getEntry (registerWorld emptyWorld "s1" 1).conns "s1" = some 1 ∧
    handleStreamRequest (registerWorld emptyWorld "s1" 1) "s1" 2
      = .ok (registerWorld (registerWorld emptyWorld "s1" 1) "s1" 2) ∧
    getEntry (registerWorld (registerWorld emptyWorld "s1" 1) "s1" 2).conns "s1"
      = some 2 := by
  refine ⟨?_, by decide, ?_, by decide⟩
  · unfold handleStreamRequest
    rw [if_neg (by decide : ¬(("s1" : String) = ""))]
  · unfold handleStreamRequest
    rw [if_neg (by decide : ¬(("s1" : String) = ""))]

/-- C3 (amended): a second registration attempt for a session identifier
that is still registered succeeds (no `DuplicateSession` error exists in
the code) and silently replaces the first subscriber's stream with the new
one in the registry. -/
theorem claim_C3_second_register_replaces (w : SSEWorld) (sid : String)
    (cid₁ cid₂ : Nat) (hsid : sid ≠ "")
    (_hreg : getEntry w.conns sid = some cid₁) :
    handleStreamRequest w sid cid₂ = .ok (registerWorld w sid cid₂) ∧
    getEntry (registerWorld w sid cid₂).conns sid = some cid₂ := by
  constructor
  · unfold handleStreamRequest
    rw [if_neg hsid]
  · show getEntry (setEntry w.conns sid cid₂) sid = some cid₂
    exact getEntry_setEntry_same w.conns sid cid₂

theorem claim_C3_witness :
    handleStreamRequest liveWorld "s1" 7 = .ok (registerWorld liveWorld "s1" 7) ∧
    getEntry (registerWorld liveWorld "s1" 7).conns "s1" = some 7 :=
  claim_C3_second_register_replaces liveWorld "s1" 0 7 (by decide) (by decide)

/-- C4: publishing to a session with no registry entry is a no-op that does
not raise (the function is total and returns the state unchanged); if the
entry exists but delivery to its stream fails, the entry is deleted, the
session is no longer registered, and every subsequent publish for it is a
no-op. -/
theorem claim_C4_publish_best_effort (w : SSEWorld) (sid : String) (d : SSEData) :
    (getEntry w.conns sid = none → sendSSEMessage w sid d = w) ∧
    (∀ cid, getEntry w.conns sid = some cid → (w.chans cid).alive = false →
      sendSSEMessage w sid d = { w with conns := delEntry w.conns sid } ∧
      getEntry (sendSSEMessage w sid d).conns sid = none ∧
      ∀ evs, publishAll (sendSSEMessage w sid d) sid evs = sendSSEMessage w sid d) := by
  constructor
  · intro h
    exact sendSSEMessage_noEntry w sid d h
  · intro cid hc ha
    have hdel := sendSSEMessage_dead w sid d cid hc ha
    have hnone : getEntry (sendSSEMessage w sid d).conns sid = none := by
      rw [hdel]
      exact getEntry_delEntry_same w.conns sid
    exact ⟨hdel, hnone, fun evs => publishAll_noEntry sid evs _ hnone⟩

theorem claim_C4_witness :
    sendSSEMessage emptyWorld "s1" (SSEData.start 3) = emptyWorld ∧
    sendSSEMessage deadWorld "s1" (SSEData.start 3)
      = { deadWorld with conns := delEntry deadWorld.conns "s1" } ∧
    getEntry (sendSSEMessage deadWorld "s1" (SSEData.start 3)).conns "s1" = none ∧
    publishAll (sendSSEMessage deadWorld "s1" (SSEData.start 3)) "s1"
        [SSEData.start 4, SSEData.error "x"]
      = sendSSEMessage deadWorld "s1" (SSEData.start 3) :=
  ⟨(claim_C4_publish_best_effort emptyWorld "s1" (SSEData.start 3)).1 rfl,
   ((claim_C4_publish_best_effort deadWorld "s1" (SSEData.start 3)).2 0 rfl rfl).1,
   ((claim_C4_publish_best_effort deadWorld "s1" (SSEData.start 3)).2 0 rfl rfl).2.1,
   ((claim_C4_publish_best_effort deadWorld "s1" (SSEData.start 3)).2 0 rfl rfl).2.2
     [SSEData.start 4, SSEData.error "x"]⟩

/-- C10: a subscriber that registers with a fresh stream gets the
`connected` event carrying its session id written immediately at
registration, as the first message on its stream, and no later publish
activity — to any session — can put anything before it. -/
theorem claim_C10_connected_first (w : SSEWorld) (sid : String) (cid : Nat)
    (hsid : sid ≠ "") (hfresh : (w.chans cid).events = []) :
    handleStreamRequest w sid cid = .ok (registerWorld w sid cid) ∧
    ((registerWorld w sid cid).chans cid).events = [SSEData.connected sid] ∧
    ∀ pubs : List (String × SSEData),
      ((publishSeq (registerWorld w sid cid) pubs).chans cid).events.head?
        = some (SSEData.connected sid) := by
  have hev : ((registerWorld w sid cid).chans cid).events = [SSEData.connected sid] := by
    show ((updChan w.chans cid (writeChan (w.chans cid) (.connected sid))) cid).events = _
    rw [updChan_same]
    show (w.chans cid).events ++ [SSEData.connected sid] = _
    rw [hfresh]
    rfl
  refine ⟨?_, hev, ?_⟩
  · unfold handleStreamRequest
    rw [if_neg hsid]
  · intro pubs
    obtain ⟨t, ht⟩ := publishSeq_head pubs (registerWorld w sid cid) cid
      (SSEData.connected sid) [] hev
    rw [ht]
    rfl

theorem claim_C10_witness :
    handleStreamRequest emptyWorld "s1" 0 = .ok (registerWorld emptyWorld "s1" 0) ∧
    ((registerWorld emptyWorld "s1" 0).chans 0).events = [SSEData.connected "s1"] ∧
    ((publishSeq (registerWorld emptyWorld "s1" 0)
        [("s1", SSEData.start 2)]).chans 0).events.head?
      = some (SSEData.connected "s1") :=
  ⟨(claim_C10_connected_first emptyWorld "s1" 0 (by decide) rfl).1,
   (claim_C10_connected_first emptyWorld "s1" 0 (by decide) rfl).2.1,
   (claim_C10_connected_first emptyWorld "s1" 0 (by decide) rfl).2.2
     [("s1", SSEData.start 2)]⟩

/-- The endpoint's finishing pipeline (publish the run's events, publish the
`complete` event, tear down the session) appends exactly those events to a
live subscriber's stream, ends the stream, deregisters the session, and
makes further publishes no-ops. -/
theorem finishSession_spec (w : SSEWorld) (sid : String) (cid : Nat)
    (evs : List SSEData) (cmp : SSEData)
    (hc : getEntry w.conns sid = some cid) (ha : (w.chans cid).alive = true) :
    ((closeAfterComplete (sendSSEMessage (publishAll w sid evs) sid cmp) sid).chans cid).events
      = (w.chans cid).events ++ evs ++ [cmp] ∧
    ((closeAfterComplete (sendSSEMessage (publishAll w sid evs) sid cmp) sid).chans cid).ended
      = true ∧
    getEntry (closeAfterComplete (sendSSEMessage (publishAll w sid evs) sid cmp) sid).conns sid
      = none ∧
    ∀ d, sendSSEMessage
        (closeAfterComplete (sendSSEMessage (publishAll w sid evs) sid cmp) sid) sid d
      = closeAfterComplete (sendSSEMessage (publishAll w sid evs) sid cmp) sid := by
  have hw1 := publishAll_alive sid cid evs w hc ha
  have hc1 : getEntry (publishAll w sid evs).conns sid = some cid := by
    rw [hw1]
    exact hc
  have hch1 : (publishAll w sid evs).chans cid = appendEvents (w.chans cid) evs := by
    rw [hw1]
    exact updChan_same _ _ _
  have ha1 : ((publishAll w sid evs).chans cid).alive = true := by
    rw [hch1]
    exact ha
  have hw2 := sendSSEMessage_alive (publishAll w sid evs) sid cmp cid hc1 ha1
  have hc2 : getEntry (sendSSEMessage (publishAll w sid evs) sid cmp).conns sid = some cid := by
    rw [hw2]
    exact hc1
  have hch2 : (sendSSEMessage (publishAll w sid evs) sid cmp).chans cid
      = writeChan (appendEvents (w.chans cid) evs) cmp := by
    rw [hw2]
    show updChan (publishAll w sid evs).chans cid
        (writeChan ((publishAll w sid evs).chans cid) cmp) cid = _
    rw [updChan_same, hch1]
  have hw3 := closeAfterComplete_entry (sendSSEMessage (publishAll w sid evs) sid cmp) sid cid hc2
  have hch3 : (closeAfterComplete (sendSSEMessage (publishAll w sid evs) sid cmp) sid).chans cid
      = endChan (writeChan (appendEvents (w.chans cid) evs) cmp) := by
    rw [hw3]
    show updChan (sendSSEMessage (publishAll w sid evs) sid cmp).chans cid
        (endChan ((sendSSEMessage (publishAll w sid evs) sid cmp).chans cid)) cid = _
    rw [updChan_same, hch2]
  have hcnone : getEntry
      (closeAfterComplete (sendSSEMessage (publishAll w sid evs) sid cmp) sid).conns sid
      = none := by
    rw [hw3]
    show getEntry (delEntry (sendSSEMessage (publishAll w sid evs) sid cmp).conns sid) sid = none
    exact getEntry_delEntry_same _ sid
  refine ⟨?_, ?_, hcnone, ?_⟩
  · rw [hch3]
    simp [endChan, writeChan, appendEvents]
  · rw [hch3]
    rfl
  · intro d
    exact sendSSEMessage_noEntry _ sid d hcnone

/-- C8: for a live subscriber attached to a run over a non-empty row
sequence, the events delivered on its stream beyond what was already there
are exactly: one `start` event carrying the row count, then one `email`
event per row in input order, then the single terminal `complete` event
with the final stats; after it the stream is ended, the session is
deregistered, and no further event can be delivered. -/
theorem claim_C8_session_event_order (validate : Validate) (ec : String)
    (se : Option String) (rows : List Row) (ofn : String)
    (w : SSEWorld) (sid : String) (cid : Nat)
    (hrows : rows ≠ [])
    (hc : getEntry w.conns sid = some cid)
    (ha : (w.chans cid).alive = true) :
    (((handleValidateWithSession validate ec se rows ofn w sid).2.chans cid).events
      = (w.chans cid).events
        ++ (SSEData.start rows.length
            :: rows.map (fun r =>
                 SSEData.email (processRowSSE validate ec se r).2.1
                   (processRowSSE validate ec se r).2.2.1
                   (processRowSSE validate ec se r).2.2.2)
            ++ [SSEData.complete (handleValidateWithSession validate ec se rows ofn w sid).1
                 ("/api/download/" ++ ofn) ofn])) ∧
    ((handleValidateWithSession validate ec se rows ofn w sid).2.chans cid).ended = true ∧
    getEntry (handleValidateWithSession validate ec se rows ofn w sid).2.conns sid = none ∧
    ∀ d, sendSSEMessage (handleValidateWithSession validate ec se rows ofn w sid).2 sid d
      = (handleValidateWithSession validate ec se rows ofn w sid).2 := by
  have hne : rows.isEmpty = false := by
    cases rows with
    | nil => exact absurd rfl hrows
    | cons a l => rfl
  have hpr2 : (processXLSXFileWithSSE validate ec se rows).2
      = SSEData.start rows.length
          :: rows.map (fun r =>
               SSEData.email (processRowSSE validate ec se r).2.1
                 (processRowSSE validate ec se r).2.2.1
                 (processRowSSE validate ec se r).2.2.2) := by
    rw [processXLSXFileWithSSE, hne]
    simp [validateEmailsWithSSE_eq_map, List.map_map, Function.comp]
  have hmain := finishSession_spec w sid cid (processXLSXFileWithSSE validate ec se rows).2
    (SSEData.complete (processXLSXFileWithSSE validate ec se rows).1
      ("/api/download/" ++ ofn) ofn) hc ha
  have hsnd : (handleValidateWithSession validate ec se rows ofn w sid).2
      = closeAfterComplete
          (sendSSEMessage (publishAll w sid (processXLSXFileWithSSE validate ec se rows).2) sid
            (SSEData.complete (processXLSXFileWithSSE validate ec se rows).1
              ("/api/download/" ++ ofn) ofn)) sid := rfl
  have hfst : (handleValidateWithSession validate ec se rows ofn w sid).1
      = (processXLSXFileWithSSE validate ec se rows).1 := rfl
  refine ⟨?_, ?_, ?_, ?_⟩
  · rw [hsnd, hfst, hmain.1, hpr2]
    simp
  · rw [hsnd]
    exact hmain.2.1
  · rw [hsnd]
    exact hmain.2.2.1
  · intro d
    rw [hsnd]
    exact hmain.2.2.2 d

theorem claim_C8_witness :
    (((handleValidateWithSession okValidate "email" none sampleRows "out.xlsx"
          liveWorld "s1").2.chans 0).events
      = (liveWorld.chans 0).events
        ++ (SSEData.start sampleRows.length
            :: sampleRows.map (fun r =>
                 SSEData.email (processRowSSE okValidate "email" none r).2.1
                   (processRowSSE okValidate "email" none r).2.2.1
                   (processRowSSE okValidate "email" none r).2.2.2)
            ++ [SSEData.complete (handleValidateWithSession okValidate "email" none
                  sampleRows "out.xlsx" liveWorld "s1").1
                 ("/api/download/" ++ "out.xlsx") "out.xlsx"])) ∧
    ((handleValidateWithSession okValidate "email" none sampleRows "out.xlsx"
        liveWorld "s1").2.chans 0).ended = true ∧
    getEntry (handleValidateWithSession okValidate "email" none sampleRows "out.xlsx"
        liveWorld "s1").2.conns "s1" = none ∧
    sendSSEMessage (handleValidateWithSession okValidate "email" none sampleRows "out.xlsx"
        liveWorld "s1").2 "s1" (SSEData.start 9)
      = (handleValidateWithSession okValidate "email" none sampleRows "out.xlsx"
          liveWorld "s1").2 :=
  ⟨(claim_C8_session_event_order okValidate "email" none sampleRows "out.xlsx"
      liveWorld "s1" 0 (by decide) rfl rfl).1,
   (claim_C8_session_event_order okValidate "email" none sampleRows "out.xlsx"
      liveWorld "s1" 0 (by decide) rfl rfl).2.1,
   (claim_C8_session_event_order okValidate "email" none sampleRows "out.xlsx"
      liveWorld "s1" 0 (by decide) rfl rfl).2.2.1,
   (claim_C8_session_event_order okValidate "email" none sampleRows "out.xlsx"
      liveWorld "s1" 0 (by decide) rfl rfl).2.2.2 (SSEData.start 9)⟩

end EmailValidator
